import Mathlib

/-!
Verification development for the DNS forwarding resolver in `src/dns`
(`protocol.rs`, `cache.rs`, `client.rs`, `server.rs`).

The Rust code is shallowly embedded: machine integers become `Nat` with
explicit `% 2^w` where overflow matters, Rust `String` values become their
UTF-8 byte sequences (`List Nat`), fallible code returns an explicit result
type that distinguishes `Ok`, `Err`, `panic!`/`expect` aborts, and
non-termination (the pointer-following loop in the parser is modelled with
fuel; the Rust original is unbounded).
-/

namespace Dns

/-- Outcome of a Rust computation: `ok` models `Ok`, `err` models `Err`
(an `io::Error` with its message), `panic` models a `panic!`/`expect`/index
abort with its message, and `diverge` models non-termination (the embedded
parser is fuel-bounded while the Rust loop is not). -/
inductive Res (α : Type) where
  | ok : α → Res α
  | err : String → Res α
  | panic : String → Res α
  | diverge : Res α
  deriving DecidableEq, Repr

/-- Big-endian bytes of a `u16` value (`u16::to_be_bytes`). -/
def be16 (n : Nat) : List Nat := [n / 256 % 256, n % 256]

/-- Big-endian bytes of a `u32` value (`u32::to_be_bytes`). -/
def be32 (n : Nat) : List Nat :=
  [n / 16777216 % 256, n / 65536 % 256, n / 256 % 256, n % 256]

/-- `str::split_once` on a byte string at the first occurrence of byte
`sep` (the code always uses `"."`, byte 46). -/
def splitOnce (sep : Nat) : List Nat → Option (List Nat × List Nat)
  | [] => none
  | b :: rest =>
    if b = sep then some ([], rest)
    else
      match splitOnce sep rest with
      | none => none
      | some (l, r) => some (b :: l, r)

/-- The UTF-8 validity check performed by `std::str::from_utf8`: byte
sequences must follow the standard UTF-8 table (no overlongs, no
surrogates, max U+10FFFF). -/
def validUtf8 : List Nat → Bool
  | [] => true
  | b :: rest =>
    if b < 0x80 then validUtf8 rest
    else if 0xC2 ≤ b ∧ b ≤ 0xDF then
      match rest with
      | c1 :: r => (0x80 ≤ c1 ∧ c1 ≤ 0xBF) && validUtf8 r
      | [] => false
    else if 0xE0 ≤ b ∧ b ≤ 0xEF then
      match rest with
      | c1 :: c2 :: r =>
        (if b = 0xE0 then 0xA0 ≤ c1 ∧ c1 ≤ 0xBF
         else if b = 0xED then 0x80 ≤ c1 ∧ c1 ≤ 0x9F
         else 0x80 ≤ c1 ∧ c1 ≤ 0xBF) &&
        (0x80 ≤ c2 ∧ c2 ≤ 0xBF) && validUtf8 r
      | _ => false
    else if 0xF0 ≤ b ∧ b ≤ 0xF4 then
      match rest with
      | c1 :: c2 :: c3 :: r =>
        (if b = 0xF0 then 0x90 ≤ c1 ∧ c1 ≤ 0xBF
         else if b = 0xF4 then 0x80 ≤ c1 ∧ c1 ≤ 0x8F
         else 0x80 ≤ c1 ∧ c1 ≤ 0xBF) &&
        (0x80 ≤ c2 ∧ c2 ≤ 0xBF) && (0x80 ≤ c3 ∧ c3 ≤ 0xBF) && validUtf8 r
      | _ => false
    else false

/-- `Flags` from `protocol.rs`: the packed two-byte header bitfield,
kept as its two raw bytes exactly as the Rust struct does. -/
structure Flags where
  b0 : Nat
  b1 : Nat
  deriving DecidableEq, Repr

namespace Flags

/-- `Flags::from_bytes`. -/
def from_bytes (left right : Nat) : Flags := ⟨left, right⟩

/-- `Flags::qr`: `self.0[0] >> 7`. -/
def qr (f : Flags) : Nat := f.b0 >>> 7

/-- `Flags::set_qr`: `self.0[0] &= qr << 7` (the `assert!(qr < 2)` in the
source restricts the argument to 0 or 1; all call sites in the repository
pass 1). -/
def set_qr (f : Flags) (v : Nat) : Flags := ⟨f.b0 &&& (v <<< 7), f.b1⟩

/-- `Flags::opcode`: `(self.0[0] >> 3) & 0x0F`. -/
def opcode (f : Flags) : Nat := (f.b0 >>> 3) &&& 0x0F

/-- `Flags::aa`: `(self.0[0] >> 2) & 0x01`. -/
def aa (f : Flags) : Nat := (f.b0 >>> 2) &&& 0x01

/-- `Flags::tc`: `(self.0[0] >> 1) & 0x01`. -/
def tc (f : Flags) : Nat := (f.b0 >>> 1) &&& 0x01

/-- `Flags::rd`: `self.0[0] & 0x01`. -/
def rd (f : Flags) : Nat := f.b0 &&& 0x01

/-- `Flags::ra`: `self.0[1] >> 7`. -/
def ra (f : Flags) : Nat := f.b1 >>> 7

/-- `Flags::z`: `(self.0[1] >> 6) & 0x01`. -/
def z (f : Flags) : Nat := (f.b1 >>> 6) &&& 0x01

/-- `Flags::ad`: `(self.0[1] >> 5) & 0x01`. -/
def ad (f : Flags) : Nat := (f.b1 >>> 5) &&& 0x01

/-- `Flags::cd`: `(self.0[1] >> 4) & 0x01`. -/
def cd (f : Flags) : Nat := (f.b1 >>> 4) &&& 0x01

/-- `Flags::rcode`: `self.0[1] & 0x0F`. -/
def rcode (f : Flags) : Nat := f.b1 &&& 0x0F

end Flags

/-- `Header` from `protocol.rs`. -/
structure Header where
  id : Nat
  flags : Flags
  qdcount : Nat
  ancount : Nat
  nscount : Nat
  arcount : Nat
  deriving DecidableEq, Repr

/-- `Header::from_bytes`: reads the fixed twelve header bytes by direct
indexing (`b[0]` … `b[11]`); its caller guarantees at least twelve bytes,
otherwise the Rust indexing panics (that panic is raised by
`Message.from_bytes` below before this function is entered). -/
def Header.from_bytes (b : List Nat) : Header :=
  { id := (b.getD 0 0) * 256 + b.getD 1 0
    flags := Flags.from_bytes (b.getD 2 0) (b.getD 3 0)
    qdcount := (b.getD 4 0) * 256 + b.getD 5 0
    ancount := (b.getD 6 0) * 256 + b.getD 7 0
    nscount := (b.getD 8 0) * 256 + b.getD 9 0
    arcount := (b.getD 10 0) * 256 + b.getD 11 0 }

/-- `Question` from `protocol.rs`; `qname` is the Rust `String` as its
UTF-8 byte sequence. -/
structure Question where
  qname : List Nat
  qtype : Nat
  qclass : Nat
  deriving DecidableEq, Repr

/-- `ResourceRecord` from `protocol.rs`. -/
structure ResourceRecord where
  name : List Nat
  rtype : Nat
  rclass : Nat
  ttl : Nat
  rdlength : Nat
  rdata : List Nat
  deriving DecidableEq, Repr

/-- `Message` from `protocol.rs`. -/
structure Message where
  header : Header
  questions : List Question
  answers : List ResourceRecord
  authorities : List ResourceRecord
  additionals : List ResourceRecord
  deriving DecidableEq, Repr

/-! ### The message writer (`MessageWriter`, encoding side) -/

/-- `MessageWriter` from `protocol.rs`: output buffer, the
name-to-offset tally used for compression (a `HashMap` whose entries are
only inserted when absent, so an association list looked up front-to-back
is an exact model), and the running `u16` position. -/
structure MessageWriter where
  underlying : List Nat
  label_tally : List (List Nat × Nat)
  pos : Nat
  deriving DecidableEq, Repr

/-- `MessageWriter::new(Vec::new())`. -/
def MessageWriter.new : MessageWriter := ⟨[], [], 0⟩

/-- `MessageWriter::write_all`: appends to the buffer and advances the
wrapping `u16` position. -/
def write_all (w : MessageWriter) (buf : List Nat) : MessageWriter :=
  { w with underlying := w.underlying ++ buf
           pos := (w.pos + buf.length) % 65536 }

/-- `HashMap::get` on the tally: first (and only) binding of the name. -/
def tallyLookup : List (List Nat × Nat) → List Nat → Option Nat
  | [], _ => none
  | (k, v) :: rest, n => if k = n then some v else tallyLookup rest n

/-- `MessageWriter::write_name` with explicit recursion fuel: the Rust
recursion is on the strictly shorter suffix after the first `"."`, so fuel
`name.length + 1` (supplied by `write_name`) is never exhausted. -/
def write_nameF : Nat → List Nat → MessageWriter → MessageWriter
  | 0, _, w => w
  | fuel + 1, name, w =>
    if name = [] then write_all w [0]
    else
      match tallyLookup w.label_tally name with
      | some p => write_all w (be16 (p ||| 0xC000))
      | none =>
        let w := { w with label_tally := (name, w.pos) :: w.label_tally }
        match splitOnce 46 name with
        | none => write_all (write_all (write_all w [name.length % 256]) name) [0]
        | some (left, rest) =>
          write_nameF fuel rest (write_all (write_all w [left.length % 256]) left)

/-- `MessageWriter::write_name`. -/
def write_name (name : List Nat) (w : MessageWriter) : MessageWriter :=
  write_nameF (name.length + 1) name w

/-- `Flags::write`. -/
def Flags.write (f : Flags) (w : MessageWriter) : MessageWriter :=
  write_all w [f.b0, f.b1]

/-- `Header::write`. -/
def Header.write (h : Header) (w : MessageWriter) : MessageWriter :=
  let w := write_all w (be16 (h.id % 65536))
  let w := h.flags.write w
  let w := write_all w (be16 (h.qdcount % 65536))
  let w := write_all w (be16 (h.ancount % 65536))
  let w := write_all w (be16 (h.nscount % 65536))
  write_all w (be16 (h.arcount % 65536))

/-- `Question::write`. -/
def Question.write (q : Question) (w : MessageWriter) : MessageWriter :=
  let w := write_name q.qname w
  let w := write_all w (be16 (q.qtype % 65536))
  write_all w (be16 (q.qclass % 65536))

/-- `ResourceRecord::write`. -/
def ResourceRecord.write (r : ResourceRecord) (w : MessageWriter) : MessageWriter :=
  let w := write_name r.name w
  let w := write_all w (be16 (r.rtype % 65536))
  let w := write_all w (be16 (r.rclass % 65536))
  let w := write_all w (be32 (r.ttl % 4294967296))
  let w := write_all w (be16 (r.rdlength % 65536))
  write_all w r.rdata

/-- `Message::write`: header, then questions, answers, authorities,
additionals in order. -/
def Message.write (m : Message) (w : MessageWriter) : MessageWriter :=
  let w := m.header.write w
  let w := m.questions.foldl (fun w q => q.write w) w
  let w := m.answers.foldl (fun w r => r.write w) w
  let w := m.authorities.foldl (fun w r => r.write w) w
  m.additionals.foldl (fun w r => r.write w) w

/-- `Message::to_udp_packet`: runs the writer on an empty buffer. The
Rust signature returns `io::Result` but writing into a `Vec` is
infallible, so the embedding returns the bytes directly. -/
def Message.to_udp_packet (m : Message) : List Nat :=
  (m.write MessageWriter.new).underlying

/-! ### The message reader (decoding side) -/

/-- `Read::read_exact` over an in-memory cursor: `n` bytes at `pos`, or
an `UnexpectedEof` `io::Error`. -/
def readExact (b : List Nat) (pos n : Nat) : Res (List Nat × Nat) :=
  if pos + n ≤ b.length then .ok ((b.drop pos).take n, pos + n)
  else .err "failed to fill whole buffer"

/-- `read_u16`. -/
def read_u16 (b : List Nat) (pos : Nat) : Res (Nat × Nat) :=
  match readExact b pos 2 with
  | .ok (bytes, pos') => .ok ((bytes.getD 0 0) * 256 + bytes.getD 1 0, pos')
  | .err e => .err e
  | .panic e => .panic e
  | .diverge => .diverge

/-- `read_u32`. -/
def read_u32 (b : List Nat) (pos : Nat) : Res (Nat × Nat) :=
  match readExact b pos 4 with
  | .ok (bytes, pos') =>
    .ok ((bytes.getD 0 0) * 16777216 + (bytes.getD 1 0) * 65536 +
         (bytes.getD 2 0) * 256 + bytes.getD 3 0, pos')
  | .err e => .err e
  | .panic e => .panic e
  | .diverge => .diverge

/-- `LabelKind` from `protocol.rs`. -/
inductive LabelKind where
  | Absent : LabelKind
  | Data : Nat → LabelKind
  | Pointer : Nat → LabelKind
  deriving DecidableEq, Repr

/-- `LabelKind::read`: one length byte; 0 terminates, top two bits `11`
introduce a 14-bit pointer whose low bits come from the next byte. -/
def LabelKind.read (b : List Nat) (pos : Nat) : Res (LabelKind × Nat) :=
  match readExact b pos 1 with
  | .ok (bytes, pos') =>
    let b0 := bytes.getD 0 0
    if b0 = 0 then .ok (.Absent, pos')
    else if b0 &&& 0xC0 = 0xC0 then
      match readExact b pos' 1 with
      | .ok (bytes1, pos'') => .ok (.Pointer ((b0 &&& 0x3F) * 256 + bytes1.getD 0 0), pos'')
      | .err e => .err e
      | .panic e => .panic e
      | .diverge => .diverge
    else .ok (.Data b0, pos')
  | .err e => .err e
  | .panic e => .panic e
  | .diverge => .diverge

/-- The loop body of `read_labels_to_str`, with fuel: one unit of fuel per
loop iteration or pointer dereference. The Rust loop is unbounded and can
follow pointer cycles forever; exhausted fuel yields `diverge`. `acc` is
the `qname` accumulator. Note the source appends a `'.'` separator only in
the `Data` arm; the `Pointer` arm appends the referenced name directly. -/
def readLabels (b : List Nat) : Nat → Nat → List Nat → Res (List Nat × Nat)
  | 0, _, _ => .diverge
  | fuel + 1, pos, acc =>
    match LabelKind.read b pos with
    | .ok (.Absent, pos') => .ok (acc, pos')
    | .ok (.Data len, pos') =>
      match readExact b pos' len with
      | .ok (label, pos'') =>
        if validUtf8 label then
          readLabels b fuel pos'' (acc ++ (if acc = [] then [] else [46]) ++ label)
        else .panic "invalid utf8 label"
      | .err e => .err e
      | .panic e => .panic e
      | .diverge => .diverge
    | .ok (.Pointer off, pos') =>
      match readLabels b fuel off [] with
      | .ok (s, _) => .ok (acc ++ s, pos')
      | .err e => .err e
      | .panic e => .panic e
      | .diverge => .diverge
    | .err e => .err e
    | .panic e => .panic e
    | .diverge => .diverge

/-- `read_labels_to_str`: starts with an empty `qname`. The fuel budget
`2 * b.length + 2` is ample for every read that terminates on canonical
input (each label and pointer consumes distinct buffer bytes). -/
def read_labels_to_str (b : List Nat) (pos : Nat) : Res (List Nat × Nat) :=
  readLabels b (2 * b.length + 2) pos []

/-- `Question::read`. -/
def Question.read (b : List Nat) (pos : Nat) : Res (Question × Nat) :=
  match read_labels_to_str b pos with
  | .ok (qname, pos1) =>
    match read_u16 b pos1 with
    | .ok (qtype, pos2) =>
      match read_u16 b pos2 with
      | .ok (qclass, pos3) => .ok (⟨qname, qtype, qclass⟩, pos3)
      | .err e => .err e
      | .panic e => .panic e
      | .diverge => .diverge
    | .err e => .err e
    | .panic e => .panic e
    | .diverge => .diverge
  | .err e => .err e
  | .panic e => .panic e
  | .diverge => .diverge

/-- `ResourceRecord::read`. -/
def ResourceRecord.read (b : List Nat) (pos : Nat) : Res (ResourceRecord × Nat) :=
  match read_labels_to_str b pos with
  | .ok (name, pos1) =>
    match read_u16 b pos1 with
    | .ok (rtype, pos2) =>
      match read_u16 b pos2 with
      | .ok (rclass, pos3) =>
        match read_u32 b pos3 with
        | .ok (ttl, pos4) =>
          match read_u16 b pos4 with
          | .ok (rdlength, pos5) =>
            match readExact b pos5 rdlength with
            | .ok (rdata, pos6) => .ok (⟨name, rtype, rclass, ttl, rdlength, rdata⟩, pos6)
            | .err e => .err e
            | .panic e => .panic e
            | .diverge => .diverge
          | .err e => .err e
          | .panic e => .panic e
          | .diverge => .diverge
        | .err e => .err e
        | .panic e => .panic e
        | .diverge => .diverge
      | .err e => .err e
      | .panic e => .panic e
      | .diverge => .diverge
    | .err e => .err e
    | .panic e => .panic e
    | .diverge => .diverge
  | .err e => .err e
  | .panic e => .panic e
  | .diverge => .diverge

/-- `ResourceRecord::read_all`: `count` sequential records. -/
def ResourceRecord.read_all (b : List Nat) : Nat → Nat → Res (List ResourceRecord × Nat)
  | 0, pos => .ok ([], pos)
  | count + 1, pos =>
    match ResourceRecord.read b pos with
    | .ok (r, pos') =>
      match ResourceRecord.read_all b count pos' with
      | .ok (rs, pos'') => .ok (r :: rs, pos'')
      | .err e => .err e
      | .panic e => .panic e
      | .diverge => .diverge
    | .err e => .err e
    | .panic e => .panic e
    | .diverge => .diverge

/-- `Message::from_bytes`. A buffer shorter than twelve bytes makes the
header field indexing in `Header::from_bytes` panic; a `qdcount` of two or
more is an `InvalidData` error; a failing question read is converted to a
panic by the source's `.expect("could not parse question")`. -/
def Message.from_bytes (b : List Nat) : Res Message :=
  if b.length < 12 then .panic "index out of bounds"
  else
    let header := Header.from_bytes b
    let questions : Res (List Question × Nat) :=
      match header.qdcount with
      | 0 => .ok ([], 12)
      | 1 =>
        match Question.read b 12 with
        | .ok (q, pos) => .ok ([q], pos)
        | .err _ => .panic "could not parse question"
        | .panic e => .panic e
        | .diverge => .diverge
      | _ => .err "unsupported number of questions"
    match questions with
    | .ok (qs, pos) =>
      match ResourceRecord.read_all b header.ancount pos with
      | .ok (answers, pos1) =>
        match ResourceRecord.read_all b header.nscount pos1 with
        | .ok (authorities, pos2) =>
          match ResourceRecord.read_all b header.arcount pos2 with
          | .ok (additionals, _) => .ok ⟨header, qs, answers, authorities, additionals⟩
          | .err e => .err e
          | .panic e => .panic e
          | .diverge => .diverge
        | .err e => .err e
        | .panic e => .panic e
        | .diverge => .diverge
      | .err e => .err e
      | .panic e => .panic e
      | .diverge => .diverge
    | .err e => .err e
    | .panic e => .panic e
    | .diverge => .diverge

/-! ### The response cache (`cache.rs`) -/

/-- `MAX_TTL_SECONDS` from `cache.rs`. -/
def MAX_TTL_SECONDS : Nat := 1800

/-- One stored cache value: `DnsCacheValue` (answer snapshot plus
insertion timestamp) together with the per-entry expiry the code passes to
the container's `insert_ttl_evict`. Time is modelled in milliseconds, the
unit the container is configured with; `inserted_at` is the `SystemTime`
of insertion. -/
structure CacheEntry where
  answers : List ResourceRecord
  inserted_at : Nat
  expiry_ms : Nat
  deriving DecidableEq, Repr

/-- The cache contents: question-keyed association list (newest binding
first), standing in for the `ExpiringSizedCache` container. -/
abbrev CacheState : Type := List (Question × CacheEntry)

/-- Key lookup in the cache contents. -/
def cacheLookup : CacheState → Question → Option CacheEntry
  | [], _ => none
  | (k, v) :: rest, q => if k = q then some v else cacheLookup rest q

/-- Modelled from the spec: the third-party `ExpiringSizedCache`
container's `insert_ttl_evict` (the crate's source is not part of this
repository) — it stores the value under the key with the given per-entry
TTL, "replacing/evicting any prior entry for the same question". -/
def cacheInsert (st : CacheState) (q : Question) (e : CacheEntry) : CacheState :=
  (q, e) :: st.filter (fun kv => kv.1 ≠ q)

/-- The minimum-TTL value of a record list (`min_by_key(|rr| rr.ttl)`
followed by reading `.ttl`); `none` on an empty list. -/
def minTtlVal : List ResourceRecord → Option Nat
  | [] => none
  | r :: rs => some (rs.foldl (fun acc x => min acc x.ttl) r.ttl)

/-- `min_ttl` from `cache.rs`: minimum TTL, capped at `MAX_TTL_SECONDS`,
converted to milliseconds (`Duration::from_secs(ttl).as_millis()`). -/
def min_ttl (rr : List ResourceRecord) : Option Nat :=
  (minTtlVal rr).map fun t =>
    (if t > MAX_TTL_SECONDS then MAX_TTL_SECONDS else t) * 1000

/-- `DnsCache::get`: on a live hit, clones the stored answers and decays
each TTL by the elapsed whole seconds since insertion
(`rr.ttl = if elapsed < rr.ttl { rr.ttl - elapsed } else { 0 }`); the
stored entry itself is untouched. Modelled from the spec for the container
part: an entry past its per-entry TTL is inaccessible (a miss). `now` is
the current time in milliseconds. -/
def DnsCache.get (st : CacheState) (q : Question) (now : Nat) :
    Option (List ResourceRecord) :=
  match cacheLookup st q with
  | none => none
  | some v =>
    if now < v.inserted_at + v.expiry_ms then
      some (v.answers.map fun rr =>
        let elapsed := (now - v.inserted_at) / 1000
        { rr with ttl := if elapsed < rr.ttl then rr.ttl - elapsed else 0 })
    else none

/-- Result of `DnsCache::set`: the Rust method returns `()` but can panic
on the `min_ttl(&answers).unwrap()` when the record list is empty. -/
inductive SetResult where
  | ok : CacheState → SetResult
  | panic : SetResult
  deriving DecidableEq, Repr

/-- `DnsCache::set`: unwraps the minimum TTL (panicking on an empty
record list), then inserts a timestamped snapshot only when that minimum
is positive. Note the records are stored with their TTLs unmodified; the
1800-second cap is applied only to the per-entry expiry (`normalise_ttl`
exists in the source but is never called). -/
def DnsCache.set (st : CacheState) (q : Question) (answers : List ResourceRecord)
    (now : Nat) : SetResult :=
  match min_ttl answers with
  | none => .panic
  | some mt =>
    if mt > 0 then .ok (cacheInsert st q ⟨answers, now, mt⟩) else .ok st

/-! ### The upstream client's slot table (`client.rs`) -/

/-- `Slots` from `client.rs`: the pending table maps a locally chosen
slot id to the caller's original transaction id (the one-shot reply
channel is elided), plus the wrapping `u16` allocation counter. -/
structure Slots where
  pending : List (Nat × Nat)
  counter : Nat
  deriving DecidableEq, Repr

/-- The set of outstanding slot ids. -/
def Slots.ids (s : Slots) : List Nat := s.pending.map Prod.fst

/-- The `while self.pending.contains_key(&self.counter)` scan: starting
at candidate `c`, advance by `wrapping_add(1)` until a free id is found.
The Rust loop is unbounded (it would spin forever with every id in use,
which the length guard in `create` rules out); fuel 65536 covers one full
wrap. -/
def findFree (ks : List Nat) : Nat → Nat → Option Nat
  | _, 0 => none
  | c, fuel + 1 => if c ∈ ks then findFree ks ((c + 1) % 65536) fuel else some c

/-- Result of `Slots::create`: a fresh id and the updated table, the
`out of slots` error, or divergence of the unbounded scan loop. -/
inductive CreateResult where
  | ok : Nat → Slots → CreateResult
  | outOfSlots : CreateResult
  | diverge : CreateResult
  deriving DecidableEq, Repr

/-- `Slots::create`: rejects when all 65536 ids are in flight, otherwise
advances the wrapping counter past ids currently in use and registers the
first free id. -/
def Slots.create (s : Slots) (orig_id : Nat) : CreateResult :=
  if s.pending.length = 65536 then .outOfSlots
  else
    match findFree s.ids ((s.counter + 1) % 65536) 65536 with
    | some id => .ok id ⟨(id, orig_id) :: s.pending, id⟩
    | none => .diverge

/-- `HashMap::remove`'s returned value: lookup by `Nat` key. -/
def tallyLookupNat : List (Nat × Nat) → Nat → Option Nat
  | [], _ => none
  | (k, v) :: rest, n => if k = n then some v else tallyLookupNat rest n

/-- `Slots::remove`: drops the binding for `id`, returning the original
transaction id that was stored, if any. -/
def Slots.remove (s : Slots) (id : Nat) : Option Nat × Slots :=
  (tallyLookupNat s.pending id,
   ⟨s.pending.filter (fun e => e.1 ≠ id), s.counter⟩)

/-- Well-formedness of the slot table, automatic for the Rust
`HashMap<u16, _>`: distinct keys, all below 65536. -/
def Slots.WF (s : Slots) : Prop :=
  s.ids.Nodup ∧ ∀ k ∈ s.ids, k < 65536

instance (s : Slots) : Decidable s.WF := by
  unfold Slots.WF; infer_instance

/-! ### The query processor (`server.rs`) -/

/-- Observable outcome of `Processor::handle_query`: the packets sent to
the client (in order), the resulting cache contents, and whether the
spawned handler task panicked (every `.unwrap()` in the Rust body). -/
structure HandleResult where
  sent : List (List Nat)
  cache : CacheState
  panicked : Bool
  deriving DecidableEq, Repr

/-- `Processor::handle_query`, with the upstream round-trip
(`ctx.client.query(&query).await`) supplied as an oracle argument: on a
single-question cache hit it clones the query, applies `set_qr(1)`,
overwrites `ancount` and the answers and replies; on a miss it unwraps the
upstream result (panicking on timeout or IO error), stores the answers
(`DnsCache::set`, which itself panics on an empty answer list) and relays
the reply; any other question count relays the unwrapped upstream reply
verbatim. -/
def Processor.handle_query (query : Message) (st : CacheState) (now : Nat)
    (upstream : Except Unit Message) : HandleResult :=
  match query.questions with
  | [question] =>
    (match DnsCache.get st question now with
     | some answers =>
       let response : Message :=
         { query with
           header := { query.header with
                       flags := query.header.flags.set_qr 1
                       ancount := answers.length % 65536 }
           answers := answers }
       ⟨[response.to_udp_packet], st, false⟩
     | none =>
       match upstream with
       | .ok res =>
         (match DnsCache.set st question res.answers now with
          | .ok st' => ⟨[res.to_udp_packet], st', false⟩
          | .panic => ⟨[], st, true⟩)
       | .error _ => ⟨[], st, true⟩)
  | _ =>
    match upstream with
    | .ok res => ⟨[res.to_udp_packet], st, false⟩
    | .error _ => ⟨[], st, true⟩

/-- What `Processor::handle_packet` does with one inbound datagram:
spawn a handler task for a decoded message, drop it on a decode error
(only logging), or propagate a decoder panic / divergence. -/
inductive PacketAction where
  | handled : Message → PacketAction
  | dropped : PacketAction
  | panicked : String → PacketAction
  | diverged : PacketAction
  deriving DecidableEq, Repr

/-- `Processor::handle_packet`: decode, then spawn or drop. -/
def Processor.handle_packet (buf : List Nat) : PacketAction :=
  match Message.from_bytes buf with
  | .ok m => .handled m
  | .err _ => .dropped
  | .panic e => .panicked e
  | .diverge => .diverged

/-! ### Concrete wire data used in the theorems -/

/-- The literal query packet from the spec (question `www.google.com`,
type 15/MX, plus an EDNS0 OPT additional record). -/
def samplePacket : List Nat :=
  [112,27,1,32,0,1,0,0,0,0,0,1,3,119,119,119,6,103,111,111,103,108,101,
   3,99,111,109,0,0,15,0,3,0,0,41,16,0,0,0,0,0,0,0]

/-- `"www.google.com"` as UTF-8 bytes. -/
def wwwGoogleCom : List Nat :=
  [119,119,119,46,103,111,111,103,108,101,46,99,111,109]

/-- The message `samplePacket` decodes to. -/
def sampleMsg : Message :=
  { header := ⟨28699, ⟨1, 32⟩, 1, 0, 0, 1⟩
    questions := [⟨wwwGoogleCom, 15, 3⟩]
    answers := []
    authorities := []
    additionals := [⟨[], 41, 4096, 0, 0, []⟩] }

/-- A response message whose answer owner name `mail.google.com` shares
the suffix `google.com` with the question name, so the canonical encoder
emits one literal label followed by a compression pointer. -/
def pointerAfterLabelMsg : Message :=
  { header := ⟨4660, ⟨1, 0⟩, 1, 1, 0, 0⟩
    questions := [⟨wwwGoogleCom, 1, 1⟩]
    answers := [⟨[109,97,105,108,46,103,111,111,103,108,101,46,99,111,109],
                 1, 1, 60, 4, [1,2,3,4]⟩]
    authorities := []
    additionals := [] }

/-- The canonical first-occurrence-compressed encoding of
`pointerAfterLabelMsg`: the answer name is the literal label `mail`
followed by a pointer to offset 16, the first occurrence of
`google.com`. -/
def pointerAfterLabelPacket : List Nat :=
  [18,52,1,0,0,1,0,1,0,0,0,0,
   3,119,119,119,6,103,111,111,103,108,101,3,99,111,109,0,
   0,1,0,1,
   4,109,97,105,108,192,16,
   0,1,0,1,0,0,0,60,0,4,1,2,3,4]

/-- What the parser actually produces from `pointerAfterLabelPacket`: the
answer name comes back as `mailgoogle.com` — the `'.'` separator between
the literal label and the pointer target is missing. -/
def mangledMsg : Message :=
  { pointerAfterLabelMsg with
    answers := [⟨[109,97,105,108,103,111,111,103,108,101,46,99,111,109],
                 1, 1, 60, 4, [1,2,3,4]⟩] }

/-- A 14-byte buffer whose single question is cut off inside its first
label. -/
def truncatedQuestionPacket : List Nat :=
  [0,1,0,0,0,1,0,0,0,0,0,0,3,119]

/-- A packet whose single question's one-byte label is `0xFF`, which is
not valid UTF-8. -/
def invalidUtf8Packet : List Nat :=
  [0,1,0,0,0,1,0,0,0,0,0,0,1,255,0,0,1,0,1]

/-- A 12-byte header-only packet whose `qdcount` field claims two
questions. -/
def twoQuestionPacket : List Nat :=
  [0,1,1,32,0,2,0,0,0,0,0,0]

/-- A concrete cache question key. -/
def qExample : Question := ⟨[101,120], 1, 1⟩

/-- A record with TTL 999999, far above the 1800-second ceiling. -/
def rrBigTtl : ResourceRecord := ⟨[101,120], 1, 1, 999999, 4, [1,2,3,4]⟩

/-- A record with TTL 60, used for the decay witness. -/
def rrTtl60 : ResourceRecord := ⟨[101,120], 1, 1, 60, 0, []⟩

/-- A record with TTL 0. -/
def rrTtl0 : ResourceRecord := ⟨[101,120], 1, 1, 0, 0, []⟩

/-! ### Claim theorems -/

/-- C1: the round-trip claim fails on the code. The spec's literal sample
packet does round-trip, but `pointerAfterLabelPacket` — the encoder's own
canonical first-occurrence-compressed encoding of `pointerAfterLabelMsg`,
hence a well-formed message using only canonical first-occurrence
compression — parses to `mangledMsg` (the `'.'` separator before the
compression pointer is lost) and re-encodes to different bytes. -/
theorem c1_roundtrip_fails_on_pointer_after_label :
    Message.from_bytes samplePacket = .ok sampleMsg ∧
    sampleMsg.to_udp_packet = samplePacket ∧
    pointerAfterLabelMsg.to_udp_packet = pointerAfterLabelPacket ∧
    Message.from_bytes pointerAfterLabelPacket = .ok mangledMsg ∧
    mangledMsg.to_udp_packet ≠ pointerAfterLabelPacket := by
  refine ⟨?_, ?_, ?_, ?_, ?_⟩ <;> decide

/-- C2: `set_qr` is not bit-isolated. On the flags bytes `[0x01, 0x00]`
(RD set), `set_qr(1)` executes `b0 &= 1 << 7`, which clears RD and does
not even make QR read back 1. -/
theorem c2_set_qr_clobbers_other_flags :
    Flags.set_qr ⟨1, 0⟩ 1 = ⟨0, 0⟩ ∧
    Flags.rd ⟨1, 0⟩ = 1 ∧
    Flags.rd (Flags.set_qr ⟨1, 0⟩ 1) = 0 ∧
    Flags.qr (Flags.set_qr ⟨1, 0⟩ 1) = 0 := by
  refine ⟨?_, ?_, ?_, ?_⟩ <;> decide

/-- C3: `Message::from_bytes` panics instead of returning a decode error
on three malformed inputs — an empty buffer (header indexing out of
bounds), a question truncated mid-label (`expect("could not parse
question")`), and a label that is not valid UTF-8 (`expect("invalid utf8
label")`). -/
theorem c3_from_bytes_panics_on_malformed_input :
    Message.from_bytes [] = .panic "index out of bounds" ∧
    Message.from_bytes truncatedQuestionPacket = .panic "could not parse question" ∧
    Message.from_bytes invalidUtf8Packet = .panic "invalid utf8 label" := by
  refine ⟨?_, ?_, ?_⟩ <;> decide

/-- C4 counterexample: for a concrete decoded single-question query whose
cache lookup misses and whose upstream round-trip fails, `handle_query`
sends nothing to the client and the handler task panics (the `.unwrap()`
on the upstream result) — no QR=1/RCODE=2 response is synthesized. -/
theorem c4_upstream_failure_sends_nothing :
    Processor.handle_query sampleMsg [] 0 (.error ()) = ⟨[], [], true⟩ := by
  decide

/-- C4 amended: for every decoded single-question query whose cache
lookup misses, an upstream failure makes the handler panic on `.unwrap()`
with no packet sent and the cache unchanged; the query is dropped, not
answered with RCODE=2. -/
theorem c4_amended_upstream_failure_panics (q : Message) (question : Question)
    (st : CacheState) (now : Nat)
    (hq : q.questions = [question])
    (hmiss : DnsCache.get st question now = none) :
    Processor.handle_query q st now (.error ()) = ⟨[], st, true⟩ := by
  simp [Processor.handle_query, hq, hmiss]

/-- C4 amended, witness: the hypotheses hold for `sampleMsg` over the
empty cache and the theorem applies. -/
theorem c4_amended_upstream_failure_panics_witness :
    (sampleMsg.questions = [⟨wwwGoogleCom, 15, 3⟩] ∧
     DnsCache.get [] ⟨wwwGoogleCom, 15, 3⟩ 0 = none) ∧
    Processor.handle_query sampleMsg [] 0 (.error ()) = ⟨[], [], true⟩ :=
  ⟨⟨by decide, by decide⟩,
   c4_amended_upstream_failure_panics sampleMsg ⟨wwwGoogleCom, 15, 3⟩ [] 0
     (by decide) (by decide)⟩

/-- C6: the TTL ceiling is not applied to stored or served record TTLs.
Inserting a record with TTL 999999 into an empty cache stores it with the
TTL unmodified (only the entry expiry is capped at 1800000 ms), and a read
five seconds later serves TTL 999994 > `MAX_TTL_SECONDS`. -/
theorem c6_ttl_ceiling_not_applied_to_records :
    DnsCache.set [] qExample [rrBigTtl] 0 =
      .ok [(qExample, ⟨[rrBigTtl], 0, 1800000⟩)] ∧
    DnsCache.get [(qExample, ⟨[rrBigTtl], 0, 1800000⟩)] qExample 5000 =
      some [⟨[101,120], 1, 1, 999994, 4, [1,2,3,4]⟩] ∧
    999994 > MAX_TTL_SECONDS := by
  refine ⟨?_, ?_, ?_⟩ <;> decide

/-- C7: `DnsCache::set` with an empty record list is not a no-op — it
panics on `min_ttl(&answers).unwrap()`, for every cache state, question
and insertion time. -/
theorem c7_set_empty_records_panics (st : CacheState) (q : Question) (now : Nat) :
    DnsCache.set st q [] now = .panic := rfl

/-- C8 counterexample: a packet whose header claims two questions is not
forwarded — `Message::from_bytes` rejects it with the `unsupported number
of questions` error, so `handle_packet` drops it without spawning a
handler (hence no upstream forward and no cache access). -/
theorem c8_two_question_query_dropped :
    Message.from_bytes twoQuestionPacket = .err "unsupported number of questions" ∧
    Processor.handle_packet twoQuestionPacket = .dropped := by
  refine ⟨?_, ?_⟩ <;> decide

/-- C8 amended: every buffer of at least twelve bytes whose `qdcount`
field (bytes 4 and 5, big-endian) is at least 2 is rejected by
`Message::from_bytes` with the `unsupported number of questions` error and
dropped by `handle_packet`: it is never forwarded upstream and the cache
is never consulted or updated for it. -/
theorem c8_amended_multi_question_rejected (b : List Nat)
    (hlen : 12 ≤ b.length)
    (hqd : 2 ≤ (b.getD 4 0) * 256 + b.getD 5 0) :
    Message.from_bytes b = .err "unsupported number of questions" ∧
    Processor.handle_packet b = .dropped := by
  obtain ⟨k, hk⟩ : ∃ k, (b.getD 4 0) * 256 + b.getD 5 0 = k + 2 :=
    ⟨(b.getD 4 0) * 256 + b.getD 5 0 - 2, by omega⟩
  have hfb : Message.from_bytes b = .err "unsupported number of questions" := by
    have hqd' : (Header.from_bytes b).qdcount = k + 2 := hk
    simp only [Message.from_bytes, hqd']
    rw [if_neg (by omega)]
  exact ⟨hfb, by simp [Processor.handle_packet, hfb]⟩

/-- C8 amended, witness: the hypotheses hold for `twoQuestionPacket` and
the theorem applies to it. -/
theorem c8_amended_multi_question_rejected_witness :
    (12 ≤ twoQuestionPacket.length ∧
     2 ≤ (twoQuestionPacket.getD 4 0) * 256 + twoQuestionPacket.getD 5 0) ∧
    (Message.from_bytes twoQuestionPacket = .err "unsupported number of questions" ∧
     Processor.handle_packet twoQuestionPacket = .dropped) :=
  ⟨⟨by decide, by decide⟩,
   c8_amended_multi_question_rejected twoQuestionPacket (by decide) (by decide)⟩

/-- C5: a live cache hit returns a copy of the stored records in which
every field except the TTL is unchanged and the TTL is the stored TTL
minus the elapsed whole seconds since insertion, floored at zero (stated
over `Int` with `toNat` as the floor); reading twice at increasing times
computes both results from the same stored baseline `v`, which the reads
leave untouched. -/
theorem c5_cache_get_decays_ttl (st : CacheState) (q : Question) (v : CacheEntry)
    (t1 t2 : Nat)
    (hv : cacheLookup st q = some v)
    (hins : v.inserted_at ≤ t1) (h12 : t1 ≤ t2)
    (hlive : t2 < v.inserted_at + v.expiry_ms) :
    DnsCache.get st q t1 = some (v.answers.map fun rr =>
      { rr with ttl := ((rr.ttl : Int) - (((t1 - v.inserted_at) / 1000 : Nat) : Int)).toNat }) ∧
    DnsCache.get st q t2 = some (v.answers.map fun rr =>
      { rr with ttl := ((rr.ttl : Int) - (((t2 - v.inserted_at) / 1000 : Nat) : Int)).toNat }) := by
  have key : ∀ t, t < v.inserted_at + v.expiry_ms →
      DnsCache.get st q t = some (v.answers.map fun rr =>
        { rr with ttl := ((rr.ttl : Int) - (((t - v.inserted_at) / 1000 : Nat) : Int)).toNat }) := by
    intro t ht
    simp only [DnsCache.get, hv]
    rw [if_pos ht]
    refine congrArg some (List.map_congr_left fun rr _ => ?_)
    have : (if (t - v.inserted_at) / 1000 < rr.ttl
              then rr.ttl - (t - v.inserted_at) / 1000 else 0) =
        ((rr.ttl : Int) - (((t - v.inserted_at) / 1000 : Nat) : Int)).toNat := by
      split <;> omega
    simp only [this]
  exact ⟨key t1 (by omega), key t2 hlive⟩

/-- C5 witness: a record stored with TTL 60 at time 0 reads back with TTL
50 after 10 seconds and TTL 40 after 20 seconds. -/
theorem c5_cache_get_decays_ttl_witness :
    (cacheLookup [(qExample, ⟨[rrTtl60], 0, 60000⟩)] qExample =
       some ⟨[rrTtl60], 0, 60000⟩ ∧
     (0 : Nat) ≤ 10000 ∧ (10000 : Nat) ≤ 20000 ∧ (20000 : Nat) < 0 + 60000) ∧
    (DnsCache.get [(qExample, ⟨[rrTtl60], 0, 60000⟩)] qExample 10000 =
       some ([rrTtl60].map fun rr =>
         { rr with ttl := ((rr.ttl : Int) - (((10000 - 0) / 1000 : Nat) : Int)).toNat }) ∧
     DnsCache.get [(qExample, ⟨[rrTtl60], 0, 60000⟩)] qExample 20000 =
       some ([rrTtl60].map fun rr =>
         { rr with ttl := ((rr.ttl : Int) - (((20000 - 0) / 1000 : Nat) : Int)).toNat })) :=
  ⟨⟨by decide, by decide, by decide, by decide⟩,
   c5_cache_get_decays_ttl [(qExample, ⟨[rrTtl60], 0, 60000⟩)] qExample
     ⟨[rrTtl60], 0, 60000⟩ 10000 20000 (by decide) (by decide) (by decide) (by decide)⟩

/-- C10: a non-empty record list whose minimum TTL is zero is not stored:
`DnsCache::set` returns with the cache state unchanged (the `min_ttl > 0`
guard fails), so a subsequent `get` sees exactly the prior state and such
zero-TTL answers are never served from cache. -/
theorem c10_zero_min_ttl_not_stored (st : CacheState) (q : Question)
    (answers : List ResourceRecord) (now : Nat)
    (hne : answers ≠ [])
    (hmin : minTtlVal answers = some 0) :
    DnsCache.set st q answers now = .ok st := by
  simp [DnsCache.set, min_ttl, hmin]

/-- C10 witness: storing the single zero-TTL record `rrTtl0` into the
empty cache leaves it empty. -/
theorem c10_zero_min_ttl_not_stored_witness :
    (([rrTtl0] : List ResourceRecord) ≠ [] ∧ minTtlVal [rrTtl0] = some 0) ∧
    DnsCache.set [] qExample [rrTtl0] 0 = .ok [] :=
  ⟨⟨by decide, by decide⟩,
   c10_zero_min_ttl_not_stored [] qExample [rrTtl0] 0 (by decide) (by decide)⟩

/-! ### Slot-table lemmas (C9) -/

/-- A successful free-slot scan returns an id that is not in use. -/
lemma findFree_not_mem {ks : List Nat} :
    ∀ {f c id : Nat}, findFree ks c f = some id → id ∉ ks := by
  intro f
  induction f with
  | zero => intro c id h; simp [findFree] at h
  | succ f ih =>
    intro c id h
    by_cases hc : c ∈ ks
    · exact ih (by simpa [findFree, hc] using h)
    · have : c = id := by simpa [findFree, hc] using h
      exact this ▸ hc

/-- The scan only ever visits candidates below 65536. -/
lemma findFree_lt {ks : List Nat} :
    ∀ {f c id : Nat}, c < 65536 → findFree ks c f = some id → id < 65536 := by
  intro f
  induction f with
  | zero => intro c id _ h; simp [findFree] at h
  | succ f ih =>
    intro c id hc h
    by_cases hm : c ∈ ks
    · exact ih (Nat.mod_lt _ (by norm_num)) (by simpa [findFree, hm] using h)
    · have : c = id := by simpa [findFree, hm] using h
      omega

/-- If some candidate within the fuel budget is free, the scan succeeds. -/
lemma findFree_isSome {ks : List Nat} :
    ∀ {f c : Nat}, c < 65536 → (∃ j, j < f ∧ ((c + j) % 65536) ∉ ks) →
      ∃ id, findFree ks c f = some id := by
  intro f
  induction f with
  | zero => rintro c _ ⟨j, hj, _⟩; omega
  | succ f ih =>
    rintro c hc ⟨j, hj, hfree⟩
    by_cases hm : c ∈ ks
    · have hj0 : j ≠ 0 := by
        rintro rfl
        rw [Nat.add_zero, Nat.mod_eq_of_lt hc] at hfree
        exact hfree hm
      obtain ⟨id, hid⟩ := ih (Nat.mod_lt _ (by norm_num))
        ⟨j - 1, by omega, by
          rw [Nat.mod_add_mod, show c + 1 + (j - 1) = c + j by omega]
          exact hfree⟩
      exact ⟨id, by simpa [findFree, hm] using hid⟩
    · exact ⟨c, by simp [findFree, hm]⟩

/-- A duplicate-free list of ids below 65536 has at most 65536 entries. -/
lemma ids_length_le (ks : List Nat) (hnd : ks.Nodup) (hb : ∀ k ∈ ks, k < 65536) :
    ks.length ≤ 65536 := by
  have hsub : ks.toFinset ⊆ Finset.range 65536 := fun x hx =>
    Finset.mem_range.mpr (hb x (List.mem_toFinset.mp hx))
  have := Finset.card_le_card hsub
  rwa [Finset.card_range, List.toFinset_card_of_nodup hnd] at this

/-- Pigeonhole: a duplicate-free table of fewer than 65536 bounded ids
leaves some id below 65536 free. -/
lemma exists_free_id (ks : List Nat) (hnd : ks.Nodup) (hb : ∀ k ∈ ks, k < 65536)
    (hlen : ks.length < 65536) : ∃ x, x < 65536 ∧ x ∉ ks := by
  by_contra h
  push_neg at h
  have hsub : Finset.range 65536 ⊆ ks.toFinset := fun x hx =>
    List.mem_toFinset.mpr (h x (Finset.mem_range.mp hx))
  have := Finset.card_le_card hsub
  rw [Finset.card_range, List.toFinset_card_of_nodup hnd] at this
  omega

/-- A full table (65536 duplicate-free bounded ids) contains every id
below 65536. -/
lemma full_table_mem (ks : List Nat) (hnd : ks.Nodup) (hb : ∀ k ∈ ks, k < 65536)
    (hlen : ks.length = 65536) : ∀ x, x < 65536 → x ∈ ks := by
  have hsub : ks.toFinset ⊆ Finset.range 65536 := fun x hx =>
    Finset.mem_range.mpr (hb x (List.mem_toFinset.mp hx))
  have hcard : (Finset.range 65536).card ≤ ks.toFinset.card := by
    rw [Finset.card_range, List.toFinset_card_of_nodup hnd, hlen]
  have heq : ks.toFinset = Finset.range 65536 :=
    Finset.eq_of_subset_of_card_le hsub hcard
  intro x hx
  exact List.mem_toFinset.mp (heq ▸ Finset.mem_range.mpr hx)

/-- C9: slot allocation keeps ids unique. `create` never hands out an id
already pending and preserves well-formedness; it reports `outOfSlots`
exactly when all 65536 ids are in flight, and otherwise succeeds; `remove`
deletes the id (preserving well-formedness); and a removed id is eligible
for reuse — once the wrapping counter reaches it, `create` returns that
very id again. -/
theorem c9_slot_allocation (s : Slots) (o id : Nat) (hwf : s.WF) :
    (∀ i s', s.create o = .ok i s' → i ∉ s.ids ∧ s'.WF ∧ s'.ids = i :: s.ids) ∧
    (s.create o = .outOfSlots ↔ s.pending.length = 65536) ∧
    (s.pending.length ≠ 65536 → ∃ i s', s.create o = .ok i s') ∧
    (id ∉ (s.remove id).2.ids ∧ (s.remove id).2.WF) ∧
    (id ∉ s.ids → (s.counter + 1) % 65536 = id → ∃ s', s.create o = .ok id s') := by
  obtain ⟨hnd, hb⟩ := hwf
  have hpend_ids : s.ids.length = s.pending.length := List.length_map _ _
  refine ⟨?_, ?_, ?_, ?_, ?_⟩
  · intro i s' h
    by_cases hfull : s.pending.length = 65536
    · simp [Slots.create, hfull] at h
    · rcases hff : findFree s.ids ((s.counter + 1) % 65536) 65536 with _ | j
      · simp [Slots.create, hfull, hff] at h
      · have h' : j = i ∧ ({ pending := (j, o) :: s.pending, counter := j } : Slots) = s' := by
          simpa [Slots.create, hfull, hff] using h
        obtain ⟨rfl, rfl⟩ := h'
        have hmem : j ∉ s.ids := findFree_not_mem hff
        have hlt : j < 65536 :=
          findFree_lt (Nat.mod_lt _ (by norm_num)) hff
        refine ⟨hmem, ⟨?_, ?_⟩, by simp [Slots.ids]⟩
        · simpa [Slots.ids] using List.Nodup.cons hmem hnd
        · intro k hk
          rcases (by simpa [Slots.ids] using hk : k = j ∨ k ∈ s.ids) with rfl | hk'
          · exact hlt
          · exact hb k hk'
  · constructor
    · intro h
      by_contra hfull
      rcases hff : findFree s.ids ((s.counter + 1) % 65536) 65536 with _ | j <;>
        simp [Slots.create, hfull, hff] at h
    · intro h
      simp [Slots.create, h]
  · intro hfull
    have hlen : s.ids.length < 65536 := by
      have := ids_length_le s.ids hnd hb
      omega
    obtain ⟨x, hx, hxfree⟩ := exists_free_id s.ids hnd hb hlen
    have hc : (s.counter + 1) % 65536 < 65536 := Nat.mod_lt _ (by norm_num)
    have hscan : ∃ idf, findFree s.ids ((s.counter + 1) % 65536) 65536 = some idf := by
      apply findFree_isSome hc
      by_cases hcx : (s.counter + 1) % 65536 ≤ x
      · refine ⟨x - (s.counter + 1) % 65536, by omega, ?_⟩
        rw [show (s.counter + 1) % 65536 + (x - (s.counter + 1) % 65536) = x by omega,
            Nat.mod_eq_of_lt hx]
        exact hxfree
      · refine ⟨x + 65536 - (s.counter + 1) % 65536, by omega, ?_⟩
        rw [show (s.counter + 1) % 65536 + (x + 65536 - (s.counter + 1) % 65536) = x + 65536 by
              omega,
            Nat.add_mod_right, Nat.mod_eq_of_lt hx]
        exact hxfree
    obtain ⟨idf, hidf⟩ := hscan
    exact ⟨idf, ⟨(idf, o) :: s.pending, idf⟩, by simp [Slots.create, hfull, hidf]⟩
  · constructor
    · intro hmem
      simp only [Slots.remove, Slots.ids, List.mem_map] at hmem
      obtain ⟨e, he, hfst⟩ := hmem
      have := List.of_mem_filter he
      simp at this
      exact this hfst
    · have hsub : ((s.pending.filter (fun e => e.1 ≠ id)).map Prod.fst).Sublist
          (s.pending.map Prod.fst) := (List.filter_sublist _).map _
      refine ⟨hsub.nodup hnd, ?_⟩
      intro k hk
      exact hb k (hsub.mem hk)
  · intro hid hc
    have hidlt : id < 65536 := hc ▸ Nat.mod_lt _ (by norm_num)
    have hfull : s.pending.length ≠ 65536 := by
      intro hfull
      exact hid (full_table_mem s.ids hnd hb (by omega) id hidlt)
    have hscan : findFree s.ids id 65536 = some id := by
      rw [show (65536 : Nat) = 65535 + 1 from rfl]
      simp [findFree, hid]
    exact ⟨⟨(id, o) :: s.pending, id⟩, by simp [Slots.create, hfull, hc, hscan]⟩

/-- C9 witness: on the well-formed table `{2 ↦ 9}` with counter 1, all
five conjuncts hold (in particular `create` scans past the in-use id 2). -/
theorem c9_slot_allocation_witness :
    (Slots.WF ⟨[(2, 9)], 1⟩) ∧
    ((∀ i s', Slots.create ⟨[(2, 9)], 1⟩ 7 = .ok i s' →
        i ∉ Slots.ids ⟨[(2, 9)], 1⟩ ∧ s'.WF ∧ s'.ids = i :: Slots.ids ⟨[(2, 9)], 1⟩) ∧
     (Slots.create ⟨[(2, 9)], 1⟩ 7 = .outOfSlots ↔
        (Slots.pending ⟨[(2, 9)], 1⟩).length = 65536) ∧
     ((Slots.pending ⟨[(2, 9)], 1⟩).length ≠ 65536 →
        ∃ i s', Slots.create ⟨[(2, 9)], 1⟩ 7 = .ok i s') ∧
     (5 ∉ (Slots.remove ⟨[(2, 9)], 1⟩ 5).2.ids ∧ (Slots.remove ⟨[(2, 9)], 1⟩ 5).2.WF) ∧
     (5 ∉ Slots.ids ⟨[(2, 9)], 1⟩ → (Slots.counter ⟨[(2, 9)], 1⟩ + 1) % 65536 = 5 →
        ∃ s', Slots.create ⟨[(2, 9)], 1⟩ 7 = .ok 5 s')) :=
  ⟨by decide, c9_slot_allocation ⟨[(2, 9)], 1⟩ 7 5 (by decide)⟩

end Dns
